import Mathlib

set_option maxRecDepth 10000

/-!
# Verification of the chapter6 TFTP read-only server

Shallow embedding of `src/chapter6/tftp.go` (wire codec) and
`src/chapter6/server.go` (transfer loop and dispatcher preconditions).

Bytes are modelled as `Nat` values `< 256` inside `List Nat`; 16-bit
machine integers (`uint16`) are `Nat` with explicit `% 65536` where Go
overflow semantics matter.  Fallible Go methods returning `error` become
`Option`-valued Lean functions (`none` = the method returned a non-nil
error).  Go `io.Reader` payload state is made explicit: `Data.MarshalBinary`
returns the mutated `Data` value next to the produced bytes.
-/

namespace TFTP

/-- `DatagramSize = 516` from tftp.go: maximum supported datagram size. -/
def DatagramSize : Nat := 516

/-- `BlockSize = DatagramSize - 4` from tftp.go. -/
def BlockSize : Nat := DatagramSize - 4

/-- Operation codes from tftp.go (`OpRRQ = iota + 1`, no write support). -/
def OpRRQ : Nat := 1

def OpDATA : Nat := 3

def OpACK : Nat := 4

def OpERR : Nat := 5

/-- Big-endian encoding of a `uint16` value (`binary.Write` with
`binary.BigEndian` on a 2-byte integer). -/
def u16be (n : Nat) : List Nat := [n / 256 % 256, n % 256]

/-- Big-endian decoding of two bytes into a `uint16`
(`binary.Read` with `binary.BigEndian`). -/
def u16dec (b0 b1 : Nat) : Nat := b0 * 256 + b1

/-- `bytes.Buffer.ReadString(0)`: read up to and including the first NUL
byte; `none` models the `io.EOF` error returned when no NUL is present.
Returns the bytes read (NUL included) and the unread remainder. -/
def readString0 : List Nat → Option (List Nat × List Nat)
  | [] => none
  | b :: rest =>
    if b = 0 then some ([0], rest)
    else
      match readString0 rest with
      | some (s, r) => some (b :: s, r)
      | none => none

/-- `strings.TrimRight(s, "\x00")`: drop every trailing NUL byte. -/
def trimRight0 (l : List Nat) : List Nat :=
  (l.reverse.dropWhile (fun b => b = 0)).reverse

/-- Byte-wise ASCII lower-casing; agrees with Go `strings.ToLower` on the
ASCII range, which is the only range that can compare equal to "octet". -/
def lowerByte (b : Nat) : Nat := if 65 ≤ b ∧ b ≤ 90 then b + 32 else b

def lowerBytes (l : List Nat) : List Nat := l.map lowerByte

/-- The byte string "octet". -/
def octetBytes : List Nat := [111, 99, 116, 101, 116]

/-- `ReadReq` from tftp.go; strings are byte strings. -/
structure ReadReq where
  Filename : List Nat
  Mode : List Nat
  deriving DecidableEq, Repr

/-- `ReadReq.MarshalBinary`: opcode, filename, NUL, mode (default "octet"
when empty), NUL. -/
def ReadReq.MarshalBinary (q : ReadReq) : List Nat :=
  let mode := if q.Mode = [] then octetBytes else q.Mode
  u16be OpRRQ ++ q.Filename ++ [0] ++ mode ++ [0]

/-- `ReadReq.UnmarshalBinary`: read the 2-byte opcode (error when fewer
than 2 bytes are available), require `OpRRQ`, read the NUL-terminated
filename and mode, trim the terminators, reject empty fields, and require
the lower-cased mode to equal "octet".  Bytes after the mode's NUL are
never examined. -/
def ReadReq.UnmarshalBinary (p : List Nat) : Option ReadReq :=
  match p with
  | b0 :: b1 :: rest =>
    if u16dec b0 b1 = OpRRQ then
      match readString0 rest with
      | some (fn0, rest2) =>
        let fn := trimRight0 fn0
        if fn = [] then none
        else
          match readString0 rest2 with
          | some (md0, _) =>
            let md := trimRight0 md0
            if md = [] then none
            else if lowerBytes md = octetBytes then some ⟨fn, md⟩ else none
          | none => none
      | none => none
    else none
  | _ => none

/-- `Data` from tftp.go.  `Payload` is the remaining contents of the
`io.Reader`; reading consumes it. -/
structure Data where
  Block : Nat
  Payload : List Nat
  deriving DecidableEq, Repr

/-- `Data.MarshalBinary`: increment the block counter (uint16, wrapping),
then emit opcode, the incremented block number big-endian, and up to
`BlockSize` bytes copied out of the payload reader (`io.CopyN`, `io.EOF`
accepted).  Returns the mutated `Data` next to the produced bytes. -/
def Data.MarshalBinary (d : Data) : Data × List Nat :=
  let block := (d.Block + 1) % 65536
  (⟨block, d.Payload.drop BlockSize⟩,
   u16be OpDATA ++ u16be block ++ d.Payload.take BlockSize)

/-- `Data.UnmarshalBinary`: reject length < 4 or > `DatagramSize` before
looking at any byte, require the `OpDATA` opcode, read the big-endian
block number, and take the rest of the slice as the payload view. -/
def Data.UnmarshalBinary (p : List Nat) : Option Data :=
  if p.length < 4 ∨ p.length > DatagramSize then none
  else
    match p with
    | b0 :: b1 :: b2 :: b3 :: rest =>
      if u16dec b0 b1 = OpDATA then some ⟨u16dec b2 b3, rest⟩ else none
    | _ => none

/-- `Ack.MarshalBinary`: opcode then the block number, both big-endian. -/
def Ack.MarshalBinary (a : Nat) : List Nat := u16be OpACK ++ u16be a

/-- `Ack.UnmarshalBinary`: read the 2-byte opcode (error when fewer than
2 bytes), require `OpACK`, then read the 2-byte block number (error when
fewer than 2 further bytes).  Trailing bytes are never examined. -/
def Ack.UnmarshalBinary (p : List Nat) : Option Nat :=
  match p with
  | b0 :: b1 :: rest =>
    if u16dec b0 b1 = OpACK then
      match rest with
      | c0 :: c1 :: _ => some (u16dec c0 c1)
      | _ => none
    else none
  | _ => none

/-- `Error` from tftp.go (named `Err` at its use site in server.go). -/
structure Err where
  Code : Nat
  Message : List Nat
  deriving DecidableEq, Repr

/-- `Error.MarshalBinary`: opcode, error code, message, NUL. -/
def Err.MarshalBinary (e : Err) : List Nat :=
  u16be OpERR ++ u16be e.Code ++ e.Message ++ [0]

/-- `Error.UnmarshalBinary`: opcode (`OpERR`), 2-byte error code, then the
NUL-terminated message, trimmed.  Trailing bytes are never examined. -/
def Err.UnmarshalBinary (p : List Nat) : Option Err :=
  match p with
  | b0 :: b1 :: rest =>
    if u16dec b0 b1 = OpERR then
      match rest with
      | c0 :: c1 :: rest2 =>
        match readString0 rest2 with
        | some (m0, _) => some ⟨u16dec c0 c1, trimRight0 m0⟩
        | none => none
      | _ => none
    else none
  | _ => none

example : Ack.UnmarshalBinary (Ack.MarshalBinary 513) = some 513 := by decide

example : ReadReq.UnmarshalBinary (ReadReq.MarshalBinary ⟨[120], [79, 99, 84, 101, 116]⟩)
    = some ⟨[120], [79, 99, 84, 101, 116]⟩ := by decide

example : Err.UnmarshalBinary (Err.MarshalBinary ⟨2, [104, 105]⟩) = some ⟨2, [104, 105]⟩ := by
  decide

example :
    (Data.MarshalBinary ⟨65535, [9]⟩) = (⟨0, []⟩, [0, 3, 0, 0, 9]) := by decide

/-!
## The transfer loop of `Server.handle` (server.go)

`handle` runs two nested loops.  The outer `NEXTPACKET` loop marshals the
next data packet and runs while the previous written packet filled the
full `DatagramSize`.  The inner `RETRY` loop counts `i` from `s.Retries`
down to 1; each iteration writes the cached packet bytes and then waits
(with a deadline) for a reply.  A reply is modelled as an `Event`: either
the read deadline fired (`timeout`) or a datagram `buf` arrived (`recv`).
Write errors and non-timeout read errors are transport failures outside
this model.
-/

/-- One observable interaction of the `RETRY` loop body: the awaited read
either times out or yields a buffer. -/
inductive Event where
  | timeout : Event
  | recv : List Nat → Event
  deriving DecidableEq, Repr

/-- How `handle` terminates (each variant is one of its `return`/exit
paths, identified by the message it logs). -/
inductive Outcome where
  /-- loop left with a short packet: logs "sent `blocks` blocks". -/
  | done : Nat → Outcome
  /-- `RETRY` ran out of attempts: logs "exhausted retries". -/
  | exhausted : Outcome
  /-- the reply decoded as an Error packet: logs "received error". -/
  | peerError : Nat → List Nat → Outcome
  /-- the supplied event list ended while a reply was still awaited. -/
  | starved : Outcome
  deriving DecidableEq, Repr

/-- The `RETRY` loop of `Server.handle`, from the point where the current
data packet `data` (for the mutated `Data` value `d`) has been marshalled.
`r` is `s.Retries`; `i` is the remaining attempt counter.  Returns the
outcome together with the list of data packets written, in order.

Each attempt writes `data` (the cached bytes — `MarshalBinary` is not
called again) and consumes one event.  A timeout, a reply that decodes as
an `Ack` with a block number other than `d.Block`, and a reply that
decodes as neither `Ack` nor `Error` all fall to the next `RETRY`
iteration.  A matching `Ack` jumps to `NEXTPACKET`: if the packet just
acknowledged was full-size the next packet is marshalled and the loop
recurses with a fresh attempt counter, otherwise `handle` returns after
logging the block count.  An `Error` reply returns immediately. -/
def runAwait (r : Nat) : Data → List Nat → Nat → List Event → Outcome × List (List Nat)
  | _, _, 0, _ => (Outcome.exhausted, [])
  | _, data, _ + 1, [] => (Outcome.starved, [data])
  | d, data, i + 1, Event.timeout :: es =>
    let t := runAwait r d data i es
    (t.1, data :: t.2)
  | d, data, i + 1, Event.recv buf :: es =>
    match Ack.UnmarshalBinary buf with
    | some b =>
      if b = d.Block then
        if data.length = DatagramSize then
          let m := Data.MarshalBinary d
          let t := runAwait r m.1 m.2 r es
          (t.1, data :: t.2)
        else (Outcome.done d.Block, [data])
      else
        let t := runAwait r d data i es
        (t.1, data :: t.2)
    | none =>
      match Err.UnmarshalBinary buf with
      | some e => (Outcome.peerError e.Code e.Message, [data])
      | none =>
        let t := runAwait r d data i es
        (t.1, data :: t.2)

/-- `Server.handle` for a transfer of `d` (block counter and payload
reader), retry count `r`, consuming `events`: marshal the first packet and
enter the `RETRY` loop.  (The outer loop condition `n == DatagramSize`
holds initially because `n` is initialised to `DatagramSize`.) -/
def runHandle (r : Nat) (d : Data) (events : List Event) : Outcome × List (List Nat) :=
  let m := Data.MarshalBinary d
  runAwait r m.1 m.2 r events

/-- The sequence of data packets `handle` writes on the happy path, where
every awaited reply is an acknowledgment of the block just sent: marshal,
send, and continue while the packet filled the full `DatagramSize`.
`runHandle_happy` below proves this is exactly the trace of `runHandle`
under such events. -/
def handleLoop (d : Data) : List (List Nat) :=
  if _h : (Data.MarshalBinary d).2.length = DatagramSize then
    (Data.MarshalBinary d).2 :: handleLoop (Data.MarshalBinary d).1
  else [(Data.MarshalBinary d).2]
  termination_by d.Payload.length
  decreasing_by
    simp only [Data.MarshalBinary, List.length_append, List.length_take, u16be,
      List.length_cons, List.length_drop, List.length_nil, DatagramSize, BlockSize] at _h ⊢
    omega

/-- The event list acknowledging each of `k` successive blocks sent after
start block `b`, each with its own (wrapped) block number. -/
def happyEvents (b k : Nat) : List Event :=
  (List.range k).map (fun j => Event.recv (Ack.MarshalBinary ((b + j + 1) % 65536)))

/-!
## `Server` and the precondition checks of `Server.Serve` (server.go)

`Serve` reads each datagram into a fresh `DatagramSize`-byte buffer and
decodes the whole (zero-padded) buffer as a read request.  A Go `[]byte`
distinguishes `nil` from an empty non-nil slice, so `Payload` is an
`Option`: `none` models a `nil` slice.  `Timeout` is a `time.Duration` in
nanoseconds. -/
structure Server where
  Payload : Option (List Nat)
  Retries : Nat
  Timeout : Nat
  deriving DecidableEq, Repr

/-- A received datagram as `Serve` sees it: read into a zero-initialised
buffer of `DatagramSize` bytes, decoded whole (trailing zeros included). -/
def padBuf (dg : List Nat) : List Nat :=
  dg ++ List.replicate (DatagramSize - dg.length) 0

/-- `Server.Serve`: `conn` is not modelled; the precondition checks on the
`Server` value are.  A `nil` payload is an error before any datagram is
read; a zero retry count becomes 10 and a zero timeout becomes 6 seconds.
The accept loop then decodes each padded datagram as a `ReadReq`,
discarding the failures; the normalised server and the accepted requests
are returned. -/
def Server.Serve (s : Server) (incoming : List (List Nat)) :
    Except String (Server × List ReadReq) :=
  if s.Payload = none then Except.error "Payload is required"
  else
    let s' : Server :=
      { s with
        Retries := if s.Retries = 0 then 10 else s.Retries
        Timeout := if s.Timeout = 0 then 6 * 1000000000 else s.Timeout }
    Except.ok (s', incoming.filterMap (fun dg => ReadReq.UnmarshalBinary (padBuf dg)))

/-!
## Lemmas about the codec
-/

theorem BlockSize_eq : BlockSize = 512 := rfl

theorem u16dec_u16be (n : Nat) (h : n < 65536) :
    u16dec (n / 256 % 256) (n % 256) = n := by
  simp only [u16dec]
  omega

theorem ack_roundtrip (m : Nat) (h : m < 65536) :
    Ack.UnmarshalBinary (Ack.MarshalBinary m) = some m := by
  simp only [Ack.MarshalBinary, Ack.UnmarshalBinary, u16be, OpACK, List.cons_append,
    List.nil_append]
  norm_num [u16dec]
  omega

/-!
## Lemmas about `Data.MarshalBinary` and the happy-path trace
-/

theorem Data.marshal_fst (d : Data) :
    (Data.MarshalBinary d).1 = ⟨(d.Block + 1) % 65536, d.Payload.drop 512⟩ := rfl

theorem Data.marshal_block (d : Data) :
    (Data.MarshalBinary d).1.Block = (d.Block + 1) % 65536 := rfl

theorem Data.marshal_snd (d : Data) :
    (Data.MarshalBinary d).2 =
      [0, 3] ++ u16be ((d.Block + 1) % 65536) ++ d.Payload.take 512 := rfl

theorem Data.marshal_snd_length (d : Data) :
    (Data.MarshalBinary d).2.length = 4 + min 512 d.Payload.length := by
  simp [Data.marshal_snd, u16be]
  omega

theorem Data.marshal_full_iff (d : Data) :
    (Data.MarshalBinary d).2.length = DatagramSize ↔ 512 ≤ d.Payload.length := by
  rw [Data.marshal_snd_length]
  simp only [DatagramSize]
  omega

theorem handleLoop_cons (b : Nat) (p : List Nat) (h : 512 ≤ p.length) :
    handleLoop ⟨b, p⟩ =
      (Data.MarshalBinary ⟨b, p⟩).2 :: handleLoop ⟨(b + 1) % 65536, p.drop 512⟩ := by
  rw [handleLoop]
  rw [dif_pos ((Data.marshal_full_iff ⟨b, p⟩).mpr h)]
  rfl

theorem handleLoop_single (b : Nat) (p : List Nat) (h : p.length < 512) :
    handleLoop ⟨b, p⟩ = [(Data.MarshalBinary ⟨b, p⟩).2] := by
  rw [handleLoop]
  rw [dif_neg]
  simp only [Data.marshal_full_iff, not_le]
  exact h

theorem handleLoop_length_aux (n : Nat) :
    ∀ (p : List Nat) (b : Nat), p.length ≤ n →
      (handleLoop ⟨b, p⟩).length = p.length / 512 + 1 := by
  induction n with
  | zero =>
    intro p b h
    rw [handleLoop_single b p (by omega)]
    simp
    omega
  | succ n ih =>
    intro p b h
    by_cases hge : 512 ≤ p.length
    · rw [handleLoop_cons b p hge, List.length_cons,
        ih (p.drop 512) ((b + 1) % 65536) (by simp; omega)]
      simp only [List.length_drop]
      omega
    · rw [handleLoop_single b p (by omega)]
      simp
      omega

/-- The number of data packets written on the happy path is
`⌊N/512⌋ + 1` for a payload of `N` bytes: `⌈N/512⌉` when `512 ∤ N`, and
`N/512 + 1` (an extra empty terminal block) when `512 ∣ N`. -/
theorem handleLoop_length (b : Nat) (p : List Nat) :
    (handleLoop ⟨b, p⟩).length = p.length / 512 + 1 :=
  handleLoop_length_aux p.length p b le_rfl

theorem handleLoop_get_aux (n : Nat) :
    ∀ (p : List Nat) (b i : Nat), p.length ≤ n → i ≤ p.length / 512 →
      (handleLoop ⟨b, p⟩).get? i =
        some ([0, 3] ++ u16be ((b + i + 1) % 65536) ++ ((p.drop (512 * i)).take 512)) := by
  induction n with
  | zero =>
    intro p b i h hi
    have hp : p.length = 0 := by omega
    have hi0 : i = 0 := by
      rw [hp] at hi
      simpa using hi
    subst hi0
    rw [handleLoop_single b p (by omega)]
    simp [Data.marshal_snd]
  | succ n ih =>
    intro p b i h hi
    by_cases hge : 512 ≤ p.length
    · rw [handleLoop_cons b p hge]
      cases i with
      | zero => simp [Data.marshal_snd]
      | succ j =>
        rw [List.get?_cons_succ]
        rw [ih (p.drop 512) ((b + 1) % 65536) j (by simp; omega)
          (by
            simp only [List.length_drop]
            rw [Nat.div_eq_sub_div (by norm_num) hge] at hi
            omega)]
        rw [List.drop_drop]
        rw [show ((b + 1) % 65536 + j + 1) % 65536 = (b + (j + 1) + 1) % 65536 from by omega]
        rw [show 512 + 512 * j = 512 * (j + 1) from by ring]
    · have hi0 : i = 0 := by
        rw [Nat.div_eq_of_lt (by omega)] at hi
        omega
      subst hi0
      rw [handleLoop_single b p (by omega)]
      simp [Data.marshal_snd]

/-- The `i`-th (0-based) packet written on the happy path carries block
number `(b + i + 1) % 65536` big-endian and the `i`-th 512-byte slice of
the payload. -/
theorem handleLoop_get (b : Nat) (p : List Nat) (i : Nat) (hi : i ≤ p.length / 512) :
    (handleLoop ⟨b, p⟩).get? i =
      some ([0, 3] ++ u16be ((b + i + 1) % 65536) ++ ((p.drop (512 * i)).take 512)) :=
  handleLoop_get_aux p.length p b i le_rfl hi

/-!
## The happy path of `runHandle` follows `handleLoop`
-/

theorem happyEvents_zero (b : Nat) : happyEvents b 0 = [] := by
  simp [happyEvents]

theorem happyEvents_succ (b k : Nat) :
    happyEvents b (k + 1) =
      Event.recv (Ack.MarshalBinary ((b + 1) % 65536)) :: happyEvents ((b + 1) % 65536) k := by
  simp only [happyEvents, List.range_succ_eq_map, List.map_cons, List.map_map]
  congr 1
  apply List.map_congr_left
  intro j _
  simp only [Function.comp_apply]
  rw [show b + (j + 1) + 1 = b + j + 2 from by ring,
    show (b + 1) % 65536 + j + 1 = (b + 1) % 65536 + (j + 1) from by ring]
  rw [show (b + j + 2) % 65536 = ((b + 1) % 65536 + (j + 1)) % 65536 from by omega]

/-!
Step lemmas for `runAwait`, one per branch of the `RETRY` loop body.
-/

theorem runAwait_zero (r : Nat) (d : Data) (data : List Nat) (es : List Event) :
    runAwait r d data 0 es = (Outcome.exhausted, []) := by
  rw [runAwait]

theorem runAwait_timeout (r i : Nat) (d : Data) (data : List Nat) (es : List Event) :
    runAwait r d data (i + 1) (Event.timeout :: es) =
      ((runAwait r d data i es).1, data :: (runAwait r d data i es).2) := by
  rw [runAwait]

/-- A matching ack for a full-size packet: jump to `NEXTPACKET`, marshal
the next packet, reset the attempt counter. -/
theorem runAwait_recv_next (r i : Nat) (d : Data) (data buf : List Nat) (es : List Event)
    (hack : Ack.UnmarshalBinary buf = some d.Block)
    (hfull : data.length = DatagramSize) :
    runAwait r d data (i + 1) (Event.recv buf :: es) =
      ((runHandle r d es).1, data :: (runHandle r d es).2) := by
  rw [runAwait, hack]
  simp [hfull, runHandle]

/-- A matching ack for a short (final) packet: `handle` returns, logging
the block count. -/
theorem runAwait_recv_done (r i : Nat) (d : Data) (data buf : List Nat) (es : List Event)
    (hack : Ack.UnmarshalBinary buf = some d.Block)
    (hshort : data.length ≠ DatagramSize) :
    runAwait r d data (i + 1) (Event.recv buf :: es) = (Outcome.done d.Block, [data]) := by
  rw [runAwait, hack]
  simp [hshort]

/-- An ack with the wrong block number: fall through the `switch` and
spend one more `RETRY` attempt. -/
theorem runAwait_recv_mismatch (r i : Nat) (d : Data) (data buf : List Nat) (es : List Event)
    (bq : Nat) (hack : Ack.UnmarshalBinary buf = some bq) (hne : bq ≠ d.Block) :
    runAwait r d data (i + 1) (Event.recv buf :: es) =
      ((runAwait r d data i es).1, data :: (runAwait r d data i es).2) := by
  rw [runAwait, hack]
  simp [hne]

/-- A reply that decodes as an `Error` packet: `handle` returns at once. -/
theorem runAwait_recv_err (r i : Nat) (d : Data) (data buf : List Nat) (es : List Event)
    (e : Err) (hnack : Ack.UnmarshalBinary buf = none)
    (herr : Err.UnmarshalBinary buf = some e) :
    runAwait r d data (i + 1) (Event.recv buf :: es) =
      (Outcome.peerError e.Code e.Message, [data]) := by
  rw [runAwait, hnack, herr]

/-- A reply that decodes as neither `Ack` nor `Error`: "bad packet", spend
one more `RETRY` attempt. -/
theorem runAwait_recv_bad (r i : Nat) (d : Data) (data buf : List Nat) (es : List Event)
    (hnack : Ack.UnmarshalBinary buf = none)
    (hnerr : Err.UnmarshalBinary buf = none) :
    runAwait r d data (i + 1) (Event.recv buf :: es) =
      ((runAwait r d data i es).1, data :: (runAwait r d data i es).2) := by
  rw [runAwait, hnack, hnerr]

/-- One final-block step: payload shorter than 512 bytes, a matching ack
arrives, the transfer reports `done` with the final block number. -/
theorem runHandle_happy_last (p : List Nat) (b r : Nat) (rest : List Event)
    (hlt : p.length < 512) (hr : 1 ≤ r) :
    runHandle r ⟨b, p⟩ (happyEvents b 1 ++ rest) =
      (Outcome.done ((b + 1) % 65536), [(Data.MarshalBinary ⟨b, p⟩).2]) := by
  obtain ⟨r', rfl⟩ : ∃ r', r = r' + 1 := ⟨r - 1, by omega⟩
  have hshort : (Data.MarshalBinary ⟨b, p⟩).2.length ≠ DatagramSize := by
    rw [Ne, Data.marshal_full_iff]
    simpa using hlt
  have hblk : (b + 1) % 65536 < 65536 := Nat.mod_lt _ (by norm_num)
  rw [show (1 : Nat) = 0 + 1 from rfl, happyEvents_succ, happyEvents_zero,
    List.cons_append, List.nil_append]
  rw [runHandle]
  rw [runAwait_recv_done _ _ _ _ _ _ (by rw [ack_roundtrip _ hblk]; rw [Data.marshal_fst]) hshort]
  rw [Data.marshal_fst]

theorem runHandle_happy_aux (n : Nat) :
    ∀ (p : List Nat) (b r : Nat) (rest : List Event), p.length ≤ n → 1 ≤ r →
      runHandle r ⟨b, p⟩ (happyEvents b (p.length / 512 + 1) ++ rest) =
        (Outcome.done ((b + (p.length / 512 + 1)) % 65536), handleLoop ⟨b, p⟩) := by
  induction n with
  | zero =>
    intro p b r rest h hr
    have h0 : p.length = 0 := by omega
    rw [h0]
    norm_num
    rw [runHandle_happy_last p b r rest (by omega) hr, handleLoop_single b p (by omega)]
  | succ n ih =>
    intro p b r rest h hr
    by_cases hge : 512 ≤ p.length
    · obtain ⟨r', rfl⟩ : ∃ r', r = r' + 1 := ⟨r - 1, by omega⟩
      have hdiv : p.length / 512 = (p.length - 512) / 512 + 1 :=
        Nat.div_eq_sub_div (by norm_num) hge
      have hfull : (Data.MarshalBinary ⟨b, p⟩).2.length = DatagramSize :=
        (Data.marshal_full_iff _).mpr hge
      have hblk : (b + 1) % 65536 < 65536 := Nat.mod_lt _ (by norm_num)
      rw [hdiv]
      rw [show (p.length - 512) / 512 + 1 + 1 = ((p.length - 512) / 512 + 1) + 1 from rfl,
        happyEvents_succ]
      rw [runHandle]
      rw [List.cons_append]
      rw [runAwait_recv_next _ _ _ _ _ _
        (by rw [ack_roundtrip _ hblk]; rw [Data.marshal_fst]) hfull]
      rw [Data.marshal_fst]
      have hrec := ih (p.drop 512) ((b + 1) % 65536) (r' + 1) rest
        (by simp only [List.length_drop]; omega) (by omega)
      simp only [List.length_drop] at hrec
      rw [show p.length - 512 = p.length - 512 from rfl] at hrec
      rw [hrec]
      rw [handleLoop_cons b p hge]
      rw [show ((b + 1) % 65536 + ((p.length - 512) / 512 + 1)) % 65536 =
        (b + ((p.length - 512) / 512 + 1 + 1)) % 65536 from by omega]
    · have hdiv : p.length / 512 = 0 := Nat.div_eq_of_lt (by omega)
      rw [hdiv]
      norm_num
      rw [runHandle_happy_last p b r rest (by omega) hr, handleLoop_single b p (by omega)]

/-- When every sent data block is acknowledged with its own block number
(`happyEvents`), `Server.handle` reports `done` with the final block
number and its write trace is exactly `handleLoop`. -/
theorem runHandle_happy (p : List Nat) (b r : Nat) (rest : List Event) (hr : 1 ≤ r) :
    runHandle r ⟨b, p⟩ (happyEvents b (p.length / 512 + 1) ++ rest) =
      (Outcome.done ((b + (p.length / 512 + 1)) % 65536), handleLoop ⟨b, p⟩) :=
  runHandle_happy_aux p.length p b r rest le_rfl hr

/-!
## NUL-terminated field lemmas
-/

theorem readString0_append (l : List Nat) (hl : ∀ x ∈ l, x ≠ 0) (rest : List Nat) :
    readString0 (l ++ 0 :: rest) = some (l ++ [0], rest) := by
  induction l with
  | nil => simp [readString0]
  | cons a l ih =>
    have ha : a ≠ 0 := hl a (by simp)
    simp only [List.cons_append, readString0, if_neg ha, List.append_eq]
    rw [ih (fun x hx => hl x (by simp [hx]))]

theorem trimRight0_append (l : List Nat) (hl : ∀ x ∈ l, x ≠ 0) :
    trimRight0 (l ++ [0]) = l := by
  simp only [trimRight0, List.reverse_append, List.reverse_cons, List.reverse_nil,
    List.nil_append, List.singleton_append, List.dropWhile_cons]
  norm_num
  cases hrev : l.reverse with
  | nil => simpa using congrArg List.reverse hrev
  | cons a t =>
    have ha : a ≠ 0 := by
      have : a ∈ l.reverse := by
        rw [hrev]
        simp
      exact hl a (by simpa using this)
    rw [List.dropWhile_cons_of_neg (by simpa using ha)]
    rw [← hrev, List.reverse_reverse]

/-- Mode bytes whose lower-casing spells "octet" contain no NUL byte. -/
theorem octet_mode_nonzero (md : List Nat) (h : lowerBytes md = octetBytes) :
    ∀ x ∈ md, x ≠ 0 := by
  intro x hx hx0
  subst hx0
  have : lowerByte 0 ∈ octetBytes := by
    rw [← h]
    exact List.mem_map_of_mem lowerByte hx
  simp [lowerByte, octetBytes] at this

theorem octet_mode_ne_nil (md : List Nat) (h : lowerBytes md = octetBytes) : md ≠ [] := by
  intro h0
  rw [h0] at h
  simp [lowerBytes, octetBytes] at h

/-!
## Roundtrip lemmas and the `ReadReq` decode characterization
-/

theorem err_roundtrip (e : Err) (hc : e.Code < 65536) (hm : ∀ x ∈ e.Message, x ≠ 0) :
    Err.UnmarshalBinary (Err.MarshalBinary e) = some e := by
  have h5 : u16dec 0 5 = OpERR := by decide
  simp only [Err.MarshalBinary, u16be, OpERR, List.cons_append, List.nil_append,
    List.append_assoc]
  simp only [Err.UnmarshalBinary, h5, OpERR, if_pos]
  simp only [readString0_append e.Message hm [], trimRight0_append e.Message hm]
  rw [u16dec_u16be e.Code hc]

theorem ReadReq.unmarshal_frame (fn md extra : List Nat)
    (hfn : ∀ x ∈ fn, x ≠ 0) (hmd : ∀ x ∈ md, x ≠ 0) :
    ReadReq.UnmarshalBinary ([0, 1] ++ fn ++ [0] ++ md ++ [0] ++ extra) =
      if fn ≠ [] ∧ md ≠ [] ∧ lowerBytes md = octetBytes then some ⟨fn, md⟩ else none := by
  have h1 : u16dec 0 1 = OpRRQ := by decide
  have hsplit : [0, 1] ++ fn ++ [0] ++ md ++ [0] ++ extra =
      0 :: 1 :: (fn ++ 0 :: (md ++ 0 :: extra)) := by
    simp
  rw [hsplit]
  simp only [ReadReq.UnmarshalBinary, h1, if_pos]
  simp only [readString0_append fn hfn (md ++ 0 :: extra), trimRight0_append fn hfn,
    readString0_append md hmd extra, trimRight0_append md hmd]
  by_cases hf : fn = []
  · simp [hf]
  · by_cases hme : md = []
    · simp [hf, hme]
    · by_cases hoct : lowerBytes md = octetBytes
      · simp [hf, hme, hoct]
      · simp [hf, hme, hoct]

theorem readreq_roundtrip (q : ReadReq) (hfn : q.Filename ≠ [])
    (hfn0 : ∀ x ∈ q.Filename, x ≠ 0) (hmode : lowerBytes q.Mode = octetBytes) :
    ReadReq.UnmarshalBinary (ReadReq.MarshalBinary q) = some q := by
  have hmd0 := octet_mode_nonzero q.Mode hmode
  have hmdne := octet_mode_ne_nil q.Mode hmode
  have henc : ReadReq.MarshalBinary q =
      [0, 1] ++ q.Filename ++ [0] ++ q.Mode ++ [0] ++ [] := by
    simp [ReadReq.MarshalBinary, if_neg hmdne, u16be, OpRRQ]
  rw [henc, ReadReq.unmarshal_frame q.Filename q.Mode [] hfn0 hmd0]
  rw [if_pos ⟨hfn, hmdne, hmode⟩]

theorem Data.decode_encode (d : Data) :
    Data.UnmarshalBinary (Data.MarshalBinary d).2 =
      some ⟨(Data.MarshalBinary d).1.Block, d.Payload.take 512⟩ := by
  have hblk : (d.Block + 1) % 65536 < 65536 := Nat.mod_lt _ (by norm_num)
  have hlen : (Data.MarshalBinary d).2.length = 4 + min 512 d.Payload.length :=
    Data.marshal_snd_length d
  rw [Data.marshal_snd, Data.marshal_fst]
  rw [show ([0, 3] : List Nat) ++ u16be ((d.Block + 1) % 65536) ++ d.Payload.take 512 =
    0 :: 3 :: ((d.Block + 1) % 65536 / 256 % 256) :: ((d.Block + 1) % 65536 % 256) ::
      d.Payload.take 512 from by simp [u16be]]
  rw [Data.UnmarshalBinary]
  rw [if_neg (by
    simp only [List.length_cons, List.length_take, DatagramSize]
    omega)]
  have h3 : u16dec 0 3 = OpDATA := by decide
  simp only [h3, if_pos]
  rw [u16dec_u16be _ hblk]

/-!
## Retry-budget lemmas
-/

/-- `i` consecutive timeouts starting with `i` remaining attempts: every
attempt retransmits the same cached bytes, and the loop falls out with
"exhausted retries" without touching the remaining events. -/
theorem runAwait_timeouts (r : Nat) (d : Data) (data : List Nat) :
    ∀ (i : Nat) (rest : List Event),
      runAwait r d data i (List.replicate i Event.timeout ++ rest) =
        (Outcome.exhausted, List.replicate i data) := by
  intro i
  induction i with
  | zero =>
    intro rest
    simp only [List.replicate, List.nil_append]
    exact runAwait_zero r d data rest
  | succ i ih =>
    intro rest
    rw [List.replicate_succ, List.cons_append, runAwait_timeout, ih rest]
    rw [List.replicate_succ]

/-- `k` replies decoding as acks for a block other than the current one,
followed by a matching ack for the current (final) block: the block never
advances, the same cached packet is retransmitted `k + 1` times, and the
transfer then completes on the very block it was awaiting — provided the
mismatched replies did not exhaust the attempt budget. -/
theorem runAwait_mismatch_then_ack (r : Nat) (d : Data) (data wrong : List Nat) (bq : Nat)
    (hw : Ack.UnmarshalBinary wrong = some bq) (hne : bq ≠ d.Block)
    (hself : Ack.UnmarshalBinary (Ack.MarshalBinary d.Block) = some d.Block)
    (hshort : data.length ≠ DatagramSize) :
    ∀ (k i : Nat) (rest : List Event), k < i →
      runAwait r d data i
          (List.replicate k (Event.recv wrong) ++
            Event.recv (Ack.MarshalBinary d.Block) :: rest) =
        (Outcome.done d.Block, List.replicate (k + 1) data) := by
  intro k
  induction k with
  | zero =>
    intro i rest hk
    obtain ⟨i', rfl⟩ : ∃ i', i = i' + 1 := ⟨i - 1, by omega⟩
    simp only [List.replicate, List.nil_append]
    rw [runAwait_recv_done r i' d data _ rest hself hshort]
  | succ k ih =>
    intro i rest hk
    obtain ⟨i', rfl⟩ : ∃ i', i = i' + 1 := ⟨i - 1, by omega⟩
    rw [List.replicate_succ, List.cons_append,
      runAwait_recv_mismatch r i' d data wrong _ bq hw hne,
      ih i' rest (by omega)]
    simp [List.replicate_succ]

/-!
## The claims
-/

/-- C3. Decode-after-encode is the identity on every valid packet: an
`Ack` with any 16-bit block number, an `Err` with any 16-bit code and
NUL-free message, a `ReadReq` with non-empty NUL-free filename and mode
case-insensitively equal to "octet"; for `Data`, decoding the encoded
bytes yields the post-increment block number and exactly the payload
bytes that were written (the up-to-512-byte chunk copied from the
reader). -/
theorem claim_C3 :
    (∀ a : Nat, a < 65536 → Ack.UnmarshalBinary (Ack.MarshalBinary a) = some a) ∧
    (∀ e : Err, e.Code < 65536 → (∀ x ∈ e.Message, x ≠ 0) →
      Err.UnmarshalBinary (Err.MarshalBinary e) = some e) ∧
    (∀ q : ReadReq, q.Filename ≠ [] → (∀ x ∈ q.Filename, x ≠ 0) →
      lowerBytes q.Mode = octetBytes →
      ReadReq.UnmarshalBinary (ReadReq.MarshalBinary q) = some q) ∧
    (∀ d : Data, Data.UnmarshalBinary (Data.MarshalBinary d).2 =
      some ⟨(Data.MarshalBinary d).1.Block, d.Payload.take 512⟩) :=
  ⟨ack_roundtrip, err_roundtrip, readreq_roundtrip, Data.decode_encode⟩

/-- Witness for C3 at concrete packets: block 300 ack, error 1 "h",
read request for "a" in mode "OCTET", a data value at block 7 carrying
two payload bytes. -/
theorem claim_C3_witness :
    Ack.UnmarshalBinary (Ack.MarshalBinary 300) = some 300 ∧
    Err.UnmarshalBinary (Err.MarshalBinary ⟨1, [104]⟩) = some ⟨1, [104]⟩ ∧
    ReadReq.UnmarshalBinary (ReadReq.MarshalBinary ⟨[97], [79, 67, 84, 69, 84]⟩) =
      some ⟨[97], [79, 67, 84, 69, 84]⟩ ∧
    Data.UnmarshalBinary (Data.MarshalBinary ⟨7, [10, 20]⟩).2 = some ⟨8, [10, 20]⟩ :=
  ⟨claim_C3.1 300 (by norm_num),
   claim_C3.2.1 ⟨1, [104]⟩ (by norm_num) (by decide),
   claim_C3.2.2.1 ⟨[97], [79, 67, 84, 69, 84]⟩ (by decide) (by decide) (by decide),
   claim_C3.2.2.2 ⟨7, [10, 20]⟩⟩

/-- C6. Every `Data.MarshalBinary` call increments the in-memory block
counter by exactly 1 (mod 2^16) before emitting it: starting from a fresh
`Data` value, `n` successive calls leave the counter at `n % 65536`, so
the emitted numbers run 1, 2, 3, …; the number is written as a 16-bit
big-endian field after the opcode; and at 65535 the counter wraps
silently to 0. -/
theorem claim_C6 :
    (∀ (p : List Nat) (n : Nat),
      ((fun d => (Data.MarshalBinary d).1)^[n] ⟨0, p⟩).Block = n % 65536) ∧
    (∀ d : Data, (Data.MarshalBinary d).2 =
      [0, 3] ++ u16be ((d.Block + 1) % 65536) ++ d.Payload.take 512) ∧
    (Data.MarshalBinary ⟨65535, []⟩).1.Block = 0 ∧
    (Data.MarshalBinary ⟨65535, []⟩).2 = [0, 3, 0, 0] := by
  refine ⟨?_, Data.marshal_snd, by decide, by decide⟩
  intro p n
  induction n with
  | zero => simp
  | succ n ih =>
    rw [Function.iterate_succ_apply']
    rw [Data.marshal_block, ih]
    omega

/-- The claim C7 says every decode path rejects input longer than
`DatagramSize`; `ReadReq.UnmarshalBinary` does not: this 517-byte buffer
(a valid read request followed by 507 trailing zero bytes) decodes
successfully. -/
theorem claim_C7_counterexample :
    ([0, 1, 97, 0] ++ octetBytes ++ [0] ++ List.replicate 507 0).length = 517 ∧
    DatagramSize < 517 ∧
    ReadReq.UnmarshalBinary ([0, 1, 97, 0] ++ octetBytes ++ [0] ++ List.replicate 507 0) =
      some ⟨[97], octetBytes⟩ := by
  refine ⟨by simp [octetBytes], by decide, ?_⟩
  have h : ([0, 1, 97, 0] ++ octetBytes ++ [0] ++ List.replicate 507 0 : List Nat) =
      [0, 1] ++ [97] ++ [0] ++ octetBytes ++ [0] ++ List.replicate 507 0 := by
    simp
  rw [h, ReadReq.unmarshal_frame [97] octetBytes (List.replicate 507 0)
    (by decide) (by decide)]
  rw [if_pos ⟨by decide, by decide, by decide⟩]

/-- C7 (amended). `Data.UnmarshalBinary` — the only decoder with a size
check — fails on every buffer shorter than 4 or longer than
`DatagramSize` bytes, before interpreting any payload byte; the other
decode paths do not enforce the 516-byte maximum. -/
theorem claim_C7 (p : List Nat) (h : p.length < 4 ∨ p.length > DatagramSize) :
    Data.UnmarshalBinary p = none := by
  rw [Data.UnmarshalBinary.eq_def, if_pos h]

/-- Witness for C7: a 517-byte buffer and a 1-byte buffer are both
rejected by the `Data` decoder. -/
theorem claim_C7_witness :
    ((List.replicate 517 0 : List Nat).length > DatagramSize ∧
      Data.UnmarshalBinary (List.replicate 517 0) = none) ∧
    (([1] : List Nat).length < 4 ∧ Data.UnmarshalBinary [1] = none) :=
  ⟨⟨by simp [DatagramSize], claim_C7 _ (Or.inr (by simp [DatagramSize]))⟩,
   ⟨by simp, claim_C7 _ (Or.inl (by simp))⟩⟩

/-- C8. `ReadReq.UnmarshalBinary` fails when the leading 2-byte opcode is
not `OpRRQ`; on an RRQ-framed buffer (opcode, NUL-terminated filename,
NUL-terminated mode, anything after) it succeeds exactly when the
filename and mode are non-empty after trimming and the mode lower-cases
to "octet", returning those two fields. -/
theorem claim_C8 :
    (∀ (b0 b1 : Nat) (rest : List Nat), u16dec b0 b1 ≠ OpRRQ →
      ReadReq.UnmarshalBinary (b0 :: b1 :: rest) = none) ∧
    (∀ fn md extra : List Nat, (∀ x ∈ fn, x ≠ 0) → (∀ x ∈ md, x ≠ 0) →
      ReadReq.UnmarshalBinary ([0, 1] ++ fn ++ [0] ++ md ++ [0] ++ extra) =
        if fn ≠ [] ∧ md ≠ [] ∧ lowerBytes md = octetBytes then some ⟨fn, md⟩ else none) := by
  constructor
  · intro b0 b1 rest hop
    rw [ReadReq.UnmarshalBinary]
    rw [if_neg hop]
  · exact ReadReq.unmarshal_frame

/-- Witness for C8: a write-request opcode is rejected; "a"/"OCTET" is
accepted; "a"/"netascii" is rejected; an empty filename is rejected. -/
theorem claim_C8_witness :
    ReadReq.UnmarshalBinary [0, 2, 97, 0, 111, 99, 116, 101, 116, 0] = none ∧
    ReadReq.UnmarshalBinary ([0, 1] ++ [97] ++ [0] ++ [79, 67, 84, 69, 84] ++ [0] ++ []) =
      some ⟨[97], [79, 67, 84, 69, 84]⟩ ∧
    ReadReq.UnmarshalBinary
        ([0, 1] ++ [97] ++ [0] ++ [110, 101, 116, 97, 115, 99, 105, 105] ++ [0] ++ []) =
      none ∧
    ReadReq.UnmarshalBinary ([0, 1] ++ [] ++ [0] ++ octetBytes ++ [0] ++ []) = none := by
  refine ⟨claim_C8.1 0 2 _ (by decide), ?_, ?_, ?_⟩
  · rw [claim_C8.2 [97] [79, 67, 84, 69, 84] [] (by decide) (by decide)]
    rw [if_pos ⟨by decide, by decide, by decide⟩]
  · rw [claim_C8.2 [97] [110, 101, 116, 97, 115, 99, 105, 105] [] (by decide) (by decide)]
    rw [if_neg (by decide)]
  · rw [claim_C8.2 [] octetBytes [] (by decide) (by decide)]
    rw [if_neg (by decide)]

/-- The claim C9 says `Serve` validates that a non-empty payload is
configured.  It only checks `s.Payload == nil`: a server configured with
an empty but non-nil payload slice passes validation and starts
accepting requests. -/
theorem claim_C9_counterexample :
    Server.Serve ⟨some [], 0, 0⟩ [] = Except.ok (⟨some [], 10, 6000000000⟩, []) := rfl

/-- C9 (amended). Before accepting any request, `Serve` validates that a
payload is configured (non-nil — an empty non-nil payload passes),
returning an error independent of the incoming datagrams when it is not,
and substitutes the defaults of 10 retries and a 6-second (6·10⁹ ns)
per-attempt timeout exactly when those fields are zero. -/
theorem claim_C9 :
    (∀ (s : Server) (incoming : List (List Nat)), s.Payload = none →
      Server.Serve s incoming = Except.error "Payload is required") ∧
    (∀ (s : Server) (pl : List Nat) (incoming : List (List Nat)), s.Payload = some pl →
      Server.Serve s incoming =
        Except.ok
          ({ s with
              Retries := if s.Retries = 0 then 10 else s.Retries
              Timeout := if s.Timeout = 0 then 6 * 1000000000 else s.Timeout },
            incoming.filterMap (fun dg => ReadReq.UnmarshalBinary (padBuf dg)))) := by
  constructor
  · intro s incoming hnil
    rw [Server.Serve, if_pos hnil]
  · intro s pl incoming hsome
    rw [Server.Serve, if_neg (by rw [hsome]; simp)]

/-- Witness for C9: a nil-payload server errors whatever arrives; a
zero-retries, zero-timeout server with payload "hi" gets the defaults. -/
theorem claim_C9_witness :
    Server.Serve ⟨none, 3, 5⟩ [[0, 1]] = Except.error "Payload is required" ∧
    Server.Serve ⟨some [104, 105], 0, 0⟩ [] =
      Except.ok (⟨some [104, 105], 10, 6000000000⟩, []) := by
  refine ⟨claim_C9.1 ⟨none, 3, 5⟩ [[0, 1]] rfl, ?_⟩
  rw [claim_C9.2 ⟨some [104, 105], 0, 0⟩ [104, 105] [] rfl]
  rfl

/-- C10. `Ack.UnmarshalBinary` succeeds on every buffer of length ≥ 4
whose first two bytes are the big-endian ACK opcode `[0, 4]`, returning
the big-endian block number from bytes 2–3; it reads only the first four
bytes, so trailing bytes — in particular the zero padding left when
`handle` decodes its whole 516-byte receive buffer — are ignored. -/
theorem claim_C10 :
    (∀ (b2 b3 : Nat) (rest : List Nat),
      Ack.UnmarshalBinary (0 :: 4 :: b2 :: b3 :: rest) = some (u16dec b2 b3)) ∧
    (∀ (b2 b3 : Nat) (rest : List Nat),
      Ack.UnmarshalBinary (0 :: 4 :: b2 :: b3 :: rest) = Ack.UnmarshalBinary [0, 4, b2, b3]) ∧
    (∀ a : Nat, a < 65536 →
      Ack.UnmarshalBinary (padBuf (Ack.MarshalBinary a)) = some a) := by
  have hstep : ∀ (b2 b3 : Nat) (rest : List Nat),
      Ack.UnmarshalBinary (0 :: 4 :: b2 :: b3 :: rest) = some (u16dec b2 b3) := by
    intro b2 b3 rest
    rw [Ack.UnmarshalBinary]
    rw [if_pos (by decide)]
  refine ⟨hstep, fun b2 b3 rest => by rw [hstep, hstep], ?_⟩
  intro a ha
  have hpad : padBuf (Ack.MarshalBinary a) =
      0 :: 4 :: (a / 256 % 256) :: (a % 256) :: List.replicate 512 0 := by
    simp [padBuf, Ack.MarshalBinary, u16be, OpACK, DatagramSize]
  rw [hpad, hstep]
  rw [u16dec_u16be a ha]

/-- Witness for C10: the ack for block 1, read into the zero-padded
516-byte buffer, still decodes as block 1. -/
theorem claim_C10_witness :
    (1 : Nat) < 65536 ∧
    Ack.UnmarshalBinary (padBuf (Ack.MarshalBinary 1)) = some 1 :=
  ⟨by norm_num, claim_C10.2.2 1 (by norm_num)⟩

/-- C4. With the full retry budget `r` timing out on one block, the
transfer writes exactly `r` byte-identical copies of the one
already-encoded packet — the block counter was incremented by the single
`MarshalBinary` call and never again — then terminates as "exhausted
retries", writing nothing further even though more events follow; and
each individual timeout spends one attempt and retransmits the cached
bytes unchanged. -/
theorem claim_C4 :
    (∀ (r : Nat) (d : Data) (rest : List Event),
      runHandle r d (List.replicate r Event.timeout ++ rest) =
        (Outcome.exhausted, List.replicate r (Data.MarshalBinary d).2)) ∧
    (∀ (r i : Nat) (d : Data) (data : List Nat) (es : List Event),
      runAwait r d data (i + 1) (Event.timeout :: es) =
        ((runAwait r d data i es).1, data :: (runAwait r d data i es).2)) := by
  refine ⟨?_, runAwait_timeout⟩
  intro r d rest
  rw [runHandle]
  exact runAwait_timeouts r _ _ r rest

/-- The claim C5 says a mismatched ack leaves the transfer "awaiting
acknowledgment of that same block".  On the last remaining attempt it
does not: with a retry budget of 1, a stale ack (block 2 instead of 1)
terminates the transfer as "exhausted retries" even though the correct
acknowledgment is the very next reply. -/
theorem claim_C5_counterexample :
    runHandle 1 ⟨0, [7]⟩ [Event.recv (Ack.MarshalBinary 2), Event.recv (Ack.MarshalBinary 1)] =
      (Outcome.exhausted, [[0, 3, 0, 1, 7]]) := by decide

/-- C5 (amended). A reply decoding as an ack with the wrong block number
never advances the transfer: the block counter stays put and the next
data block is not sent; but each such reply spends one retry attempt.
While attempts remain, the same cached packet is retransmitted: `k`
mismatched acks followed by the matching ack (`k < r`) on a final block
yield `k + 1` identical transmissions and completion on that very
block — and if the mismatched replies exhaust the budget the transfer
instead dies with "exhausted retries" (see the counterexample). -/
theorem claim_C5 (k r : Nat) (d : Data) (wrong : List Nat) (bq : Nat) (rest : List Event)
    (hw : Ack.UnmarshalBinary wrong = some bq)
    (hne : bq ≠ (Data.MarshalBinary d).1.Block)
    (hk : k < r)
    (hshort : (Data.MarshalBinary d).2.length ≠ DatagramSize) :
    runHandle r d
        (List.replicate k (Event.recv wrong) ++
          Event.recv (Ack.MarshalBinary (Data.MarshalBinary d).1.Block) :: rest) =
      (Outcome.done (Data.MarshalBinary d).1.Block,
        List.replicate (k + 1) (Data.MarshalBinary d).2) := by
  rw [runHandle]
  exact runAwait_mismatch_then_ack r (Data.MarshalBinary d).1 (Data.MarshalBinary d).2
    wrong bq hw hne
    (ack_roundtrip _ (by rw [Data.marshal_block]; exact Nat.mod_lt _ (by norm_num)))
    hshort k r rest hk

/-- Witness for C5: block 1 of payload "9" is acked once with the stale
number 5, then correctly; with budget 3 the transfer retransmits once and
completes on block 1. -/
theorem claim_C5_witness :
    Ack.UnmarshalBinary [0, 4, 0, 5] = some 5 ∧
    (5 : Nat) ≠ (Data.MarshalBinary ⟨0, [9]⟩).1.Block ∧
    (1 : Nat) < 3 ∧
    (Data.MarshalBinary ⟨0, [9]⟩).2.length ≠ DatagramSize ∧
    runHandle 3 ⟨0, [9]⟩
        (List.replicate 1 (Event.recv [0, 4, 0, 5]) ++
          Event.recv (Ack.MarshalBinary (Data.MarshalBinary ⟨0, [9]⟩).1.Block) :: []) =
      (Outcome.done (Data.MarshalBinary ⟨0, [9]⟩).1.Block,
        List.replicate 2 (Data.MarshalBinary ⟨0, [9]⟩).2) :=
  ⟨by decide, by decide, by decide, by decide,
   claim_C5 1 3 ⟨0, [9]⟩ [0, 4, 0, 5] 5 [] (by decide) (by decide) (by decide) (by decide)⟩

/-- The claim C1 says block numbers run `1..k` increasing by exactly 1
for *every* payload.  The block field is 16 bits and wraps: for the
payload of 512·65535 + 1 zero bytes the transfer sends 65536 blocks, and
the last one (index 65535) carries block number 0 — its bytes decode to
block 0, not 65536. -/
theorem claim_C1_counterexample :
    (handleLoop ⟨0, List.replicate (512 * 65535 + 1) 0⟩).length = 65536 ∧
    (handleLoop ⟨0, List.replicate (512 * 65535 + 1) 0⟩).get? 65535 = some [0, 3, 0, 0, 0] ∧
    Data.UnmarshalBinary [0, 3, 0, 0, 0] = some ⟨0, [0]⟩ := by
  refine ⟨?_, ?_, by decide⟩
  · rw [handleLoop_length]
    simp only [List.length_replicate]
  · rw [handleLoop_get 0 _ 65535 (by simp only [List.length_replicate]; omega)]
    rw [List.drop_replicate, List.take_replicate]
    norm_num [u16be]

/-- C1 (amended). When each sent data block is acknowledged with its own
block number, a transfer of a payload of `N` bytes reports `done` and
sends exactly `⌈N/512⌉` data blocks (`N/512 + 1` when `512 ∣ N`, the last
being the empty terminal block); the `i`-th block (0-based) carries block
number `(i + 1) % 65536` — so the numbers run `1..k` increasing by
exactly 1 whenever `k ≤ 65535`, wrapping silently past 65535 — and every
non-final block carries exactly 512 payload bytes while the final block
carries strictly fewer. -/
theorem claim_C1 (p : List Nat) (r : Nat) (rest : List Event) (hr : 1 ≤ r) :
    runHandle r ⟨0, p⟩ (happyEvents 0 (p.length / 512 + 1) ++ rest) =
      (Outcome.done ((p.length / 512 + 1) % 65536), handleLoop ⟨0, p⟩) ∧
    (handleLoop ⟨0, p⟩).length =
      (if p.length % 512 = 0 then p.length / 512 + 1 else (p.length + 511) / 512) ∧
    (∀ i, i < p.length / 512 + 1 →
      (handleLoop ⟨0, p⟩).get? i =
        some ([0, 3] ++ u16be ((i + 1) % 65536) ++ ((p.drop (512 * i)).take 512))) ∧
    (∀ i, i + 1 < p.length / 512 + 1 → ((p.drop (512 * i)).take 512).length = 512) ∧
    ((p.drop (512 * (p.length / 512))).take 512).length < 512 := by
  have hdm : p.length / 512 * 512 ≤ p.length := Nat.div_mul_le_self _ _
  refine ⟨?_, ?_, ?_, ?_, ?_⟩
  · have h := runHandle_happy p 0 r rest hr
    simpa using h
  · rw [handleLoop_length]
    by_cases h : p.length % 512 = 0
    · rw [if_pos h]
    · rw [if_neg h]
      omega
  · intro i hi
    have h := handleLoop_get 0 p i (by omega)
    simpa using h
  · intro i hi
    have h1 : i + 1 ≤ p.length / 512 := by omega
    have h2 : 512 * (i + 1) ≤ 512 * (p.length / 512) := by omega
    simp only [List.length_take, List.length_drop]
    omega
  · simp only [List.length_take, List.length_drop]
    omega

/-- Witness for C1 at a one-byte payload with retry budget 1: the happy
path sends a single block, block number 1, carrying the byte. -/
theorem claim_C1_witness :
    (1 : Nat) ≤ 1 ∧
    (handleLoop ⟨0, [5]⟩).get? 0 =
      some ([0, 3] ++ u16be ((0 + 1) % 65536) ++ (([5].drop (512 * 0)).take 512)) :=
  ⟨le_rfl, (claim_C1 [5] 1 [] le_rfl).2.2.1 0 (by norm_num)⟩

/-- The claim C2 says a 1024-byte payload produces exactly 2 data blocks.
The loop keeps going while the previous packet was full-size, so an
exact-multiple payload gets one extra empty terminal block: the 1024-byte
transfer writes 3 data packets. -/
theorem claim_C2_counterexample :
    (runHandle 10 ⟨0, List.replicate 1024 37⟩ (happyEvents 0 3)).2.length = 3 := by
  have h := runHandle_happy (List.replicate 1024 37) 0 10 [] (by norm_num)
  rw [List.append_nil] at h
  simp only [List.length_replicate] at h
  norm_num at h
  rw [h]
  rw [handleLoop_length]
  simp only [List.length_replicate]

/-- C2 (amended). With every block acknowledged, a payload of exactly
1024 bytes produces exactly 3 data blocks with payload lengths 512, 512
and 0, and a payload of exactly 1536 bytes produces exactly 4 data blocks
with payload lengths 512, 512, 512 and 0: the exact-multiple edge case
always appends a zero-length terminal block. -/
theorem claim_C2 :
    runHandle 1 ⟨0, List.replicate 1024 37⟩ (happyEvents 0 3) =
      (Outcome.done 3, handleLoop ⟨0, List.replicate 1024 37⟩) ∧
    (handleLoop ⟨0, List.replicate 1024 37⟩).map (fun pkt => pkt.length - 4) =
      [512, 512, 0] ∧
    runHandle 1 ⟨0, List.replicate 1536 37⟩ (happyEvents 0 4) =
      (Outcome.done 4, handleLoop ⟨0, List.replicate 1536 37⟩) ∧
    (handleLoop ⟨0, List.replicate 1536 37⟩).map (fun pkt => pkt.length - 4) =
      [512, 512, 512, 0] := by
  have h1024 := runHandle_happy (List.replicate 1024 37) 0 1 [] le_rfl
  have h1536 := runHandle_happy (List.replicate 1536 37) 0 1 [] le_rfl
  rw [List.append_nil] at h1024 h1536
  simp only [List.length_replicate] at h1024 h1536
  norm_num at h1024 h1536
  refine ⟨h1024, ?_, h1536, ?_⟩
  · rw [handleLoop_cons _ _ (by simp)]
    rw [show (List.replicate 1024 37 : List Nat).drop 512 = List.replicate 512 37 from by
      rw [List.drop_replicate]]
    rw [handleLoop_cons _ _ (by simp)]
    rw [show (List.replicate 512 37 : List Nat).drop 512 = [] from by
      rw [List.drop_replicate]; norm_num]
    rw [handleLoop_single _ _ (by simp)]
    simp [Data.marshal_snd_length]
  · rw [handleLoop_cons _ _ (by simp)]
    rw [show (List.replicate 1536 37 : List Nat).drop 512 = List.replicate 1024 37 from by
      rw [List.drop_replicate]]
    rw [handleLoop_cons _ _ (by simp)]
    rw [show (List.replicate 1024 37 : List Nat).drop 512 = List.replicate 512 37 from by
      rw [List.drop_replicate]]
    rw [handleLoop_cons _ _ (by simp)]
    rw [show (List.replicate 512 37 : List Nat).drop 512 = [] from by
      rw [List.drop_replicate]; norm_num]
    rw [handleLoop_single _ _ (by simp)]
    simp [Data.marshal_snd_length]

end TFTP
